import Mathlib

/-!
Shallow embedding of `src/templates/shortcuts.py` (nextnanopy_noVTK).

Python exceptions are modelled by the inductive type `Err` below; a Python
function that may raise is embedded as a function into `PyResult`.  Python
strings are Lean `String`s; file contents are lists of lines; the filesystem
and the interactive input channel are passed explicitly.
-/

/-- Exception kinds raised (or raisable) by the code in `shortcuts.py`.
`nextnanoInputFileError` models the `NextnanoInputFileError` class declared at
line 29 of the source; the remaining constructors model Python builtins. -/
inductive Err where
  | runtimeError (msg : String)
  | typeError (msg : String)
  | valueError (msg : String)
  | fileNotFoundError (msg : String)
  | nextnanoInputFileError (msg : String)
  | notImplementedError (msg : String)
  | indexError (msg : String)
  | unboundLocalError (varname : String)
  | eofError
  deriving DecidableEq, Repr

/-- Result of running a Python function: a value, or a raised exception. -/
inductive PyResult (α : Type) where
  | ok (val : α)
  | raise (err : Err)
  deriving DecidableEq, Repr

/-- Python values passed as `*args` / dict keys: either a `str`, or some other
object carried together with its `str()` rendering (used in error messages). -/
inductive PyVal where
  | str (s : String)
  | other (toStr : String)
  deriving DecidableEq, Repr

/-- Python `str()` of a `PyVal`. -/
def pyStr : PyVal → String
  | .str s => s
  | .other t => t

/-- Python `isinstance(v, str)`. -/
def isStr : PyVal → Bool
  | .str _ => true
  | .other _ => false

/-- Python substring test `pat in cs` on character lists. -/
def hasSubstr (pat : List Char) : List Char → Bool
  | [] => pat.isEmpty
  | c :: rest => pat.isPrefixOf (c :: rest) || hasSubstr pat rest

/-- Python substring test `pat in s` on strings. -/
def strContainsB (s pat : String) : Bool :=
  hasSubstr pat.data s.data

/-- Part of a path after the last `/` separator: `os.path.split(p)[1]`. -/
def afterLastSlash (cs : List Char) : List Char :=
  cs.foldl (fun acc c => if c = '/' then [] else acc ++ [c]) []

/-- CPython `os.path.splitext` on a path without directory components: split
at the last dot, except that dots leading the name do not begin an extension. -/
def splitextChars (cs : List Char) : List Char × List Char :=
  match (cs.dropWhile (fun c => c == '.')).reverse.span (fun c => c != '.') with
  | (_, []) => (cs, [])
  | (after, d :: beforeRev) =>
      (cs.takeWhile (fun c => c == '.') ++ beforeRev.reverse, d :: after.reverse)

/-- Embedding of `separateFileExtension` (source lines 38-49): strip directory
components, split off the extension, and reject extensions outside the fixed
set with a `RuntimeError`. -/
def separateFileExtension (filename : String) : PyResult (String × String) :=
  let base := afterLastSlash filename.data
  let parts := splitextChars base
  let extension := String.mk parts.2
  if extension ∈ ["", ".in", ".xml", ".negf"] then
    .ok (String.mk parts.1, extension)
  else
    .raise (.runtimeError ("File extension " ++ extension ++ " is not supported by nextnano."))

-- Helper lemmas about the extension splitter.

theorem dropWhile_head_false {p : Char → Bool} :
    ∀ (l : List Char) (c : Char) (cs : List Char), l.dropWhile p = c :: cs → p c = false := by
  intro l
  induction l with
  | nil => intro c cs h; simp [List.dropWhile] at h
  | cons a t ih =>
      intro c cs h
      by_cases hp : p a = true
      · rw [List.dropWhile_cons_of_pos hp] at h
        exact ih c cs h
      · rw [List.dropWhile_cons_of_neg hp] at h
        cases h
        simpa using hp

theorem splitextChars_append (cs : List Char) :
    (splitextChars cs).1 ++ (splitextChars cs).2 = cs := by
  unfold splitextChars
  rw [List.span_eq_take_drop]
  rcases h : (cs.dropWhile (fun c => c == '.')).reverse.dropWhile (fun c => c != '.') with _ | ⟨d, beforeRev⟩
  · simp
  · simp only []
    have hrev : (cs.dropWhile (fun c => c == '.')).reverse
        = (cs.dropWhile (fun c => c == '.')).reverse.takeWhile (fun c => c != '.') ++ (d :: beforeRev) := by
      rw [← h, List.takeWhile_append_dropWhile]
    have hrest : cs.dropWhile (fun c => c == '.')
        = beforeRev.reverse ++ d :: ((cs.dropWhile (fun c => c == '.')).reverse.takeWhile (fun c => c != '.')).reverse := by
      have := congrArg List.reverse hrev
      simpa [List.reverse_append] using this
    calc (cs.takeWhile (fun c => c == '.') ++ beforeRev.reverse)
          ++ d :: ((cs.dropWhile (fun c => c == '.')).reverse.takeWhile (fun c => c != '.')).reverse
        = cs.takeWhile (fun c => c == '.')
          ++ (beforeRev.reverse ++ d :: ((cs.dropWhile (fun c => c == '.')).reverse.takeWhile (fun c => c != '.')).reverse) := by
          simp [List.append_assoc]
      _ = cs.takeWhile (fun c => c == '.') ++ cs.dropWhile (fun c => c == '.') := by rw [← hrest]
      _ = cs := List.takeWhile_append_dropWhile _ _

/-- C5: for every file name or path, `separateFileExtension` strips directory
components and returns a (base name, extension) pair whose extension is the
empty string or one of `.in`, `.xml`, `.negf` — and base ++ extension is
exactly the stripped file name; any other extension raises the
unsupported-extension `RuntimeError`.  Concrete instances:
`"foo.in" ↦ ("foo", ".in")`, `"foo" ↦ ("foo", "")`, `"foo.csv"` raises. -/
theorem separateFileExtension_spec :
    (∀ (f b e : String), separateFileExtension f = .ok (b, e) →
      (e = "" ∨ e = ".in" ∨ e = ".xml" ∨ e = ".negf")
      ∧ b.data ++ e.data = afterLastSlash f.data)
    ∧ separateFileExtension "foo.in" = .ok ("foo", ".in")
    ∧ separateFileExtension "foo" = .ok ("foo", "")
    ∧ ∃ m, separateFileExtension "foo.csv" = .raise (.runtimeError m) := by
  refine ⟨?_, by decide, by decide,
    ⟨"File extension .csv is not supported by nextnano.", by decide⟩⟩
  intro f b e h
  simp only [separateFileExtension] at h
  split at h
  · rename_i hmem
    rcases h with ⟨⟩
    constructor
    · simpa using hmem
    · exact splitextChars_append (afterLastSlash f.data)
  · cases h

/-- Closed instance of the universally quantified part of
`separateFileExtension_spec`, evaluated at the path `dir/a.xml`. -/
theorem separateFileExtension_spec_witness :
    ((".xml" : String) = "" ∨ (".xml" : String) = ".in" ∨ (".xml" : String) = ".xml"
      ∨ (".xml" : String) = ".negf")
    ∧ ("a" : String).data ++ (".xml" : String).data = afterLastSlash ("dir/a.xml" : String).data :=
  separateFileExtension_spec.1 "dir/a.xml" "a" ".xml" (by decide)

/-- Loop body shared by `getSweepOutputFolderName` (lines 119-122) and
`getSweepOutputFolderPath` (lines 156-159): for each positional argument,
raise `TypeError` unless it is a `str`, else append `__` and the argument. -/
def appendSweepVars (acc : String) : List PyVal → PyResult String
  | [] => .ok acc
  | v :: rest =>
      if isStr v then appendSweepVars (acc ++ "__" ++ pyStr v) rest
      else .raise (.typeError ("Argument " ++ pyStr v ++ " must be a string!"))

/-- Embedding of `getSweepOutputFolderName` (source lines 104-124). -/
def getSweepOutputFolderName (filename : String) (args : List PyVal) : PyResult String :=
  match separateFileExtension filename with
  | .raise e => .raise e
  | .ok (filename_no_extension, _) =>
      appendSweepVars (filename_no_extension ++ "_sweep") args

/-- POSIX `os.path.join` restricted to two components. -/
def joinPosix (a b : String) : String :=
  if b.startsWith "/" then b
  else if a = "" ∨ a.endsWith "/" then a ++ b
  else a ++ "/" ++ b

/-- Embedding of `getSweepOutputFolderPath` (source lines 127-161).  The
configured per-engine output directory `nn.config.get(software,
'outputdirectory')` is an external collaborator and is passed in as `cfg`. -/
def getSweepOutputFolderPath (cfg : String → String) (filename software : String)
    (args : List PyVal) : PyResult String :=
  match separateFileExtension filename with
  | .raise e => .raise e
  | .ok (filename_no_extension, _) =>
      if args.length = 0 then
        .raise (.valueError "Sweep variable string is missing in the argument!")
      else
        appendSweepVars (joinPosix (cfg software) (filename_no_extension ++ "_sweep")) args

/-- Loop body of `getSweepOutputSubfolderName` (lines 198-207): for each
(key, value) coordinate pair, raise `TypeError` unless the key is a `str`,
else append `key ++ "_" ++ str(value) ++ "_"`.  (Python `str()` never fails
on the values modelled here, so the dead `except ValueError` branch of the
source has no counterpart.) -/
def appendCoords (acc : String) : List (PyVal × PyVal) → PyResult String
  | [] => .ok acc
  | (k, v) :: rest =>
      if isStr k then appendCoords (acc ++ pyStr k ++ "_" ++ pyStr v ++ "_") rest
      else .raise (.typeError "key must be a string!")

/-- Embedding of `getSweepOutputSubfolderName` (source lines 183-209).  The
sweep-coordinates dict is modelled as an association list in iteration
order. -/
def getSweepOutputSubfolderName (filename : String) (sweepCoordinates : List (PyVal × PyVal)) :
    PyResult String :=
  match separateFileExtension filename with
  | .raise e => .raise e
  | .ok (filename_no_extension, _) =>
      appendCoords (filename_no_extension ++ "__") sweepCoordinates

/-- Specification-side folder suffix, from the spec formula
`"".join(f"__\x7bv\x7d" for v in [v1..vn])`. -/
def spec_sweepFolderSuffix : List PyVal → String
  | [] => ""
  | v :: rest => "__" ++ pyStr v ++ spec_sweepFolderSuffix rest

/-- Specification-side subfolder suffix, from the spec formula
`"".join(f"\x7bk\x7d_\x7bval\x7d_" for k,val in coords)`. -/
def spec_sweepCoordSuffix : List (PyVal × PyVal) → String
  | [] => ""
  | (k, v) :: rest => pyStr k ++ "_" ++ pyStr v ++ "_" ++ spec_sweepCoordSuffix rest

theorem appendSweepVars_all_str (vs : List PyVal) :
    ∀ acc : String, (∀ v ∈ vs, isStr v = true) →
      appendSweepVars acc vs = .ok (acc ++ spec_sweepFolderSuffix vs) := by
  induction vs with
  | nil => intro acc _; simp [appendSweepVars, spec_sweepFolderSuffix]
  | cons v rest ih =>
      intro acc h
      have hv : isStr v = true := h v (by simp)
      rw [appendSweepVars, if_pos hv, ih _ (fun w hw => h w (by simp [hw]))]
      simp [spec_sweepFolderSuffix, String.append_assoc]

theorem appendSweepVars_non_str (vs : List PyVal) :
    ∀ acc : String, (∃ v ∈ vs, isStr v = false) →
      ∃ m, appendSweepVars acc vs = .raise (.typeError m) := by
  induction vs with
  | nil => intro acc h; simp at h
  | cons v rest ih =>
      intro acc h
      by_cases hv : isStr v = true
      · rw [appendSweepVars, if_pos hv]
        rcases h with ⟨w, hw, hws⟩
        rcases List.mem_cons.mp hw with rfl | hw2
        · rw [hv] at hws; cases hws
        · exact ih _ ⟨w, hw2, hws⟩
      · rw [appendSweepVars, if_neg hv]
        exact ⟨_, rfl⟩

/-- C2: for every base name `b` without extension (formalised as
`separateFileExtension b = .ok (b, "")`) and every list of string arguments,
`getSweepOutputFolderName` returns `b ++ "_sweep"` followed by `__` ++ the
variable for each argument in call order; a non-string argument raises a
`TypeError`. -/
theorem getSweepOutputFolderName_spec :
    (∀ (b : String) (vs : List PyVal), separateFileExtension b = .ok (b, "") →
      (∀ v ∈ vs, isStr v = true) →
      getSweepOutputFolderName b vs = .ok (b ++ "_sweep" ++ spec_sweepFolderSuffix vs))
    ∧ (∀ (b : String) (vs : List PyVal), separateFileExtension b = .ok (b, "") →
      (∃ v ∈ vs, isStr v = false) →
      ∃ m, getSweepOutputFolderName b vs = .raise (.typeError m)) := by
  constructor
  · intro b vs hb hall
    rw [getSweepOutputFolderName, hb]
    show appendSweepVars (b ++ "_sweep") vs = _
    rw [appendSweepVars_all_str vs _ hall, String.append_assoc]
  · intro b vs hb hex
    rw [getSweepOutputFolderName, hb]
    show ∃ m, appendSweepVars (b ++ "_sweep") vs = _
    exact appendSweepVars_non_str vs _ hex

/-- Closed instance of `getSweepOutputFolderName_spec`: two string sweep
variables, and one non-string argument. -/
theorem getSweepOutputFolderName_spec_witness :
    getSweepOutputFolderName "foo" [PyVal.str "x", PyVal.str "y"]
      = .ok ("foo" ++ "_sweep" ++ spec_sweepFolderSuffix [PyVal.str "x", PyVal.str "y"])
    ∧ ∃ m, getSweepOutputFolderName "foo" [PyVal.other "3"] = .raise (.typeError m) :=
  ⟨getSweepOutputFolderName_spec.1 "foo" _ (by decide) (by decide),
   getSweepOutputFolderName_spec.2 "foo" _ (by decide) (by decide)⟩

theorem appendCoords_all_str (coords : List (PyVal × PyVal)) :
    ∀ acc : String, (∀ kv ∈ coords, isStr kv.1 = true) →
      appendCoords acc coords = .ok (acc ++ spec_sweepCoordSuffix coords) := by
  induction coords with
  | nil => intro acc _; simp [appendCoords, spec_sweepCoordSuffix]
  | cons kv rest ih =>
      intro acc h
      obtain ⟨k, v⟩ := kv
      have hk : isStr k = true := h (k, v) (by simp)
      rw [appendCoords, if_pos hk, ih _ (fun w hw => h w (by simp [hw]))]
      simp [spec_sweepCoordSuffix, String.append_assoc]

theorem appendCoords_non_str (coords : List (PyVal × PyVal)) :
    ∀ acc : String, (∃ kv ∈ coords, isStr kv.1 = false) →
      ∃ m, appendCoords acc coords = .raise (.typeError m) := by
  induction coords with
  | nil => intro acc h; simp at h
  | cons kv rest ih =>
      intro acc h
      obtain ⟨k, v⟩ := kv
      by_cases hk : isStr k = true
      · rw [appendCoords, if_pos hk]
        rcases h with ⟨w, hw, hws⟩
        rcases List.mem_cons.mp hw with rfl | hw2
        · simp only [hk] at hws; cases hws
        · exact ih _ ⟨w, hw2, hws⟩
      · rw [appendCoords, if_neg hk]
        exact ⟨_, rfl⟩

/-- C3: for every base name `b` (formalised as
`separateFileExtension b = .ok (b, "")`) and ordered coordinate pairs with
string keys, `getSweepOutputSubfolderName` returns `b ++ "__"` followed by
`key ++ "_" ++ str(value) ++ "_"` for each pair in iteration order; a
non-string key raises a `TypeError`. -/
theorem getSweepOutputSubfolderName_spec :
    (∀ (b : String) (coords : List (PyVal × PyVal)),
      separateFileExtension b = .ok (b, "") →
      (∀ kv ∈ coords, isStr kv.1 = true) →
      getSweepOutputSubfolderName b coords = .ok (b ++ "__" ++ spec_sweepCoordSuffix coords))
    ∧ (∀ (b : String) (coords : List (PyVal × PyVal)),
      separateFileExtension b = .ok (b, "") →
      (∃ kv ∈ coords, isStr kv.1 = false) →
      ∃ m, getSweepOutputSubfolderName b coords = .raise (.typeError m)) := by
  constructor
  · intro b coords hb hall
    rw [getSweepOutputSubfolderName, hb]
    show appendCoords (b ++ "__") coords = _
    rw [appendCoords_all_str coords _ hall, String.append_assoc]
  · intro b coords hb hex
    rw [getSweepOutputSubfolderName, hb]
    show ∃ m, appendCoords (b ++ "__") coords = _
    exact appendCoords_non_str coords _ hex

/-- Closed instance of `getSweepOutputSubfolderName_spec`: two coordinate
pairs with string keys (one value non-string, which is permitted), and one
pair with a non-string key. -/
theorem getSweepOutputSubfolderName_spec_witness :
    getSweepOutputSubfolderName "foo" [(PyVal.str "T", PyVal.other "300"), (PyVal.str "V", PyVal.str "2")]
      = .ok ("foo" ++ "__"
          ++ spec_sweepCoordSuffix [(PyVal.str "T", PyVal.other "300"), (PyVal.str "V", PyVal.str "2")])
    ∧ ∃ m, getSweepOutputSubfolderName "foo" [(PyVal.other "1", PyVal.str "x")]
        = .raise (.typeError m) :=
  ⟨getSweepOutputSubfolderName_spec.1 "foo" _ (by decide) (by decide),
   getSweepOutputSubfolderName_spec.2 "foo" _ (by decide) (by decide)⟩

/-- C9: with zero sweep-variable arguments, `getSweepOutputFolderPath` raises
the `ValueError` "Sweep variable string is missing in the argument!", while
`getSweepOutputFolderName` succeeds and returns just `base ++ "_sweep"` —
for every file name accepted by `separateFileExtension`, every engine and
every configured output directory. -/
theorem sweep_folder_zero_args_asymmetry :
    ∀ (cfg : String → String) (software f b e : String),
      separateFileExtension f = .ok (b, e) →
      getSweepOutputFolderPath cfg f software []
        = .raise (.valueError "Sweep variable string is missing in the argument!")
      ∧ getSweepOutputFolderName f [] = .ok (b ++ "_sweep") := by
  intro cfg software f b e hf
  constructor
  · rw [getSweepOutputFolderPath, hf]
    simp
  · rw [getSweepOutputFolderName, hf]
    show appendSweepVars (b ++ "_sweep") [] = _
    rfl

/-- Closed instance of `sweep_folder_zero_args_asymmetry` at `foo.in`. -/
theorem sweep_folder_zero_args_asymmetry_witness :
    getSweepOutputFolderPath (fun _ => "output") "foo.in" "nextnano++" []
      = .raise (.valueError "Sweep variable string is missing in the argument!")
    ∧ getSweepOutputFolderName "foo.in" [] = .ok ("foo" ++ "_sweep") :=
  sweep_folder_zero_args_asymmetry (fun _ => "output") "nextnano++" "foo.in" "foo" ".in" (by decide)

/-- Scanning loop of `detect_software_new` (source lines 65-86).  The
accumulator holds the `(software, extension)` pair currently assigned, or
`none` if neither variable has been assigned yet.  The first three markers
`break` out of the loop; the last three assign and keep scanning, so a later
matching line overwrites the assignment. -/
def detectScan : List String → Option (String × String) → Option (String × String)
  | [], acc => acc
  | line :: rest, acc =>
      if strContainsB line "simulation-flow-control" then some ("nextnano3", ".in")
      else if strContainsB line "run\x7b" then some ("nextnano++", ".in")
      else if strContainsB line "<nextnano.NEGF" then some ("nextnano.NEGF", ".xml")
      else if strContainsB line "nextnano.NEGF\x7b" then
        detectScan rest (some ("nextnano.NEGF++", ".negf"))
      else if strContainsB line "<nextnano.MSB" then
        detectScan rest (some ("nextnano.MSB", ".xml"))
      else if strContainsB line "nextnano.MSB\x7b" then
        detectScan rest (some ("nextnano.MSB", ".negf"))
      else detectScan rest acc

/-- Embedding of `detect_software_new` (source lines 53-95).  The filesystem
is passed explicitly: `contents` is `none` when the file at `fullpath` does
not exist, else `some` of its lines.  When the scan assigns no marker, the
local variables `software`/`extension` of the source are never bound, so the
test `if not software:` at line 90 raises `UnboundLocalError` before the
`raise NextnanoInputFileError(...)` at line 91 can execute; when a marker was
assigned, `software` is one of the fixed non-empty engine names, so
`not software` is false and the pair is returned. -/
def detect_software_new (fullpath : String) (contents : Option (List String)) :
    PyResult (String × String) :=
  match contents with
  | none => .raise (.fileNotFoundError ("Input file " ++ fullpath ++ " not found!"))
  | some lines =>
      match detectScan lines none with
      | none => .raise (.unboundLocalError "software")
      | some sw => .ok sw

/-- True iff the line contains any of the six engine marker substrings. -/
def hitsAnyMarker (line : String) : Bool :=
  strContainsB line "simulation-flow-control" || strContainsB line "run\x7b"
  || strContainsB line "<nextnano.NEGF" || strContainsB line "nextnano.NEGF\x7b"
  || strContainsB line "<nextnano.MSB" || strContainsB line "nextnano.MSB\x7b"

theorem detectScan_skip (pre : List String) :
    ∀ (ls : List String) (acc : Option (String × String)),
      (∀ l ∈ pre, hitsAnyMarker l = false) →
      detectScan (pre ++ ls) acc = detectScan ls acc := by
  induction pre with
  | nil => intro ls acc _; rfl
  | cons l t ih =>
      intro ls acc h
      have hl : hitsAnyMarker l = false := h l (by simp)
      simp only [hitsAnyMarker, Bool.or_eq_false_iff] at hl
      obtain ⟨⟨⟨⟨⟨h1, h2⟩, h3⟩, h4⟩, h5⟩, h6⟩ := hl
      rw [List.cons_append, detectScan]
      rw [if_neg (by simp [h1]), if_neg (by simp [h2]), if_neg (by simp [h3]),
        if_neg (by simp [h4]), if_neg (by simp [h5]), if_neg (by simp [h6])]
      exact ih ls acc (fun w hw => h w (by simp [hw]))

/-- C6: scanning stops at the first line carrying an early-exit marker —
each of `simulation-flow-control` (nextnano3, `.in`), `run\x7b` (nextnano++,
`.in`) and `<nextnano.NEGF` (nextnano.NEGF, `.xml`), reached after any lines
matching no marker, decides the result whatever follows — while none of the
three overwrite-class markers `nextnano.NEGF\x7b`, `<nextnano.MSB`,
`nextnano.MSB\x7b` stops the scan: each merely replaces the accumulated
assignment and scanning continues, so a later overwrite-class line silently
overrides an earlier one, as in the concrete two-line file below.  In
particular a file containing `run\x7b` with no earlier matching marker
detects as nextnano++ with `.in`, and one reaching `simulation-flow-control`
before any `run\x7b` detects as nextnano3 with `.in`. -/
theorem detect_software_precedence :
    (∀ (fp : String) (pre rest : List String),
      (∀ l ∈ pre, hitsAnyMarker l = false) →
      detect_software_new fp (some (pre ++ "simulation-flow-control" :: rest))
        = .ok ("nextnano3", ".in"))
    ∧ (∀ (fp : String) (pre rest : List String),
      (∀ l ∈ pre, hitsAnyMarker l = false) →
      detect_software_new fp (some (pre ++ "run\x7b" :: rest)) = .ok ("nextnano++", ".in"))
    ∧ (∀ (fp : String) (pre rest : List String),
      (∀ l ∈ pre, hitsAnyMarker l = false) →
      detect_software_new fp (some (pre ++ "<nextnano.NEGF" :: rest))
        = .ok ("nextnano.NEGF", ".xml"))
    ∧ (∀ (rest : List String) (acc : Option (String × String)),
      detectScan ("nextnano.NEGF\x7b" :: rest) acc
        = detectScan rest (some ("nextnano.NEGF++", ".negf")))
    ∧ (∀ (rest : List String) (acc : Option (String × String)),
      detectScan ("<nextnano.MSB" :: rest) acc
        = detectScan rest (some ("nextnano.MSB", ".xml")))
    ∧ (∀ (rest : List String) (acc : Option (String × String)),
      detectScan ("nextnano.MSB\x7b" :: rest) acc
        = detectScan rest (some ("nextnano.MSB", ".negf")))
    ∧ detect_software_new "f.negf" (some ["nextnano.NEGF\x7b", "<nextnano.MSB"])
        = .ok ("nextnano.MSB", ".xml") := by
  refine ⟨?_, ?_, ?_, ?_, ?_, ?_, by decide⟩
  · intro fp pre rest hpre
    simp only [detect_software_new]
    rw [detectScan_skip pre _ none hpre]
    rw [detectScan, if_pos (by decide)]
  · intro fp pre rest hpre
    simp only [detect_software_new]
    rw [detectScan_skip pre _ none hpre]
    rw [detectScan, if_neg (by decide), if_pos (by decide)]
  · intro fp pre rest hpre
    simp only [detect_software_new]
    rw [detectScan_skip pre _ none hpre]
    rw [detectScan, if_neg (by decide), if_neg (by decide), if_pos (by decide)]
  · intro rest acc
    rw [detectScan, if_neg (by decide), if_neg (by decide), if_neg (by decide),
      if_pos (by decide)]
  · intro rest acc
    rw [detectScan, if_neg (by decide), if_neg (by decide), if_neg (by decide),
      if_neg (by decide), if_pos (by decide)]
  · intro rest acc
    rw [detectScan, if_neg (by decide), if_neg (by decide), if_neg (by decide),
      if_neg (by decide), if_neg (by decide), if_pos (by decide)]

/-- Closed instance of `detect_software_precedence`: a non-matching line
followed by `simulation-flow-control` and then `run\x7b`, a non-matching
line followed by `run\x7b`, and a non-matching line followed by
`<nextnano.NEGF` and then `run\x7b`. -/
theorem detect_software_precedence_witness :
    detect_software_new "a.in"
        (some (["x comment"] ++ "simulation-flow-control" :: ["run\x7b"]))
        = .ok ("nextnano3", ".in")
    ∧ detect_software_new "a.in" (some (["hello"] ++ "run\x7b" :: [])) = .ok ("nextnano++", ".in")
    ∧ detect_software_new "a.xml" (some (["hello"] ++ "<nextnano.NEGF" :: ["run\x7b"]))
        = .ok ("nextnano.NEGF", ".xml") :=
  ⟨detect_software_precedence.1 "a.in" ["x comment"] ["run\x7b"] (by decide),
   detect_software_precedence.2.1 "a.in" ["hello"] [] (by decide),
   detect_software_precedence.2.2.1 "a.xml" ["hello"] ["run\x7b"] (by decide)⟩

/-- C1: on an existing file none of whose lines contains a marker, the code
does NOT raise the documented `NextnanoInputFileError`: since the local
variable `software` is never assigned inside the loop, the guard
`if not software:` at source line 90 itself raises `UnboundLocalError`.  A
missing file, by contrast, raises `FileNotFoundError` with the path.  The
two exceptions (and `NextnanoInputFileError`) are distinct kinds. -/
theorem detect_software_no_marker_bug :
    detect_software_new "/tmp/a.in" (some ["hello world", ""])
      = .raise (.unboundLocalError "software")
    ∧ detect_software_new "/tmp/a.in" none
      = .raise (.fileNotFoundError "Input file /tmp/a.in not found!")
    ∧ (∀ m, Err.unboundLocalError "software" ≠ Err.nextnanoInputFileError m)
    ∧ (∀ m, Err.unboundLocalError "software" ≠ Err.fileNotFoundError m) :=
  ⟨by decide, by decide, fun _ h => Err.noConfusion h, fun _ h => Err.noConfusion h⟩

/-- Closed instance of `detect_software_no_marker_bug` at the message the
source's dead line 91 would have produced. -/
theorem detect_software_no_marker_bug_witness :
    Err.unboundLocalError "software"
      ≠ Err.nextnanoInputFileError "Software cannot be detected! Please check your input file." :=
  detect_software_no_marker_bug.2.2.1 _

/-- The `keywords` argument of `getDataFile_in_folder`: a `str`, a list of
keyword strings, or some other object (rejected with `TypeError`). -/
inductive PyKeywords where
  | str (s : String)
  | list (ks : List String)
  | other (toStr : String)
  deriving DecidableEq, Repr

/-- The individual keyword strings carried by a `keywords` argument. -/
def keywordList : PyKeywords → List String
  | .str s => [s]
  | .list ks => ks
  | .other _ => []

/-- Python `repr` of a list of strings, element part: `'k1', 'k2', ...`. -/
def quoteJoin : List String → String
  | [] => ""
  | [k] => "\x27" ++ k ++ "\x27"
  | k :: k2 :: rest => "\x27" ++ k ++ "\x27, " ++ quoteJoin (k2 :: rest)

/-- Python `str()` of the keywords argument, as interpolated by the f-string
in the not-found message. -/
def kwRepr : PyKeywords → String
  | .str s => s
  | .list ks => "[" ++ quoteJoin ks ++ "]"
  | .other t => t

/-- Value of a nonempty all-digit character list, else `none`. -/
def digitsVal (cs : List Char) : Option Nat :=
  if cs = [] then none
  else if cs.all (fun c => c.isDigit) then
    some (cs.foldl (fun n c => 10 * n + (c.toNat - 48)) 0)
  else none

/-- Characters remaining after stripping leading and trailing whitespace. -/
def trimChars (cs : List Char) : List Char :=
  ((cs.dropWhile (fun c => c.isWhitespace)).reverse.dropWhile (fun c => c.isWhitespace)).reverse

/-- Python `int(s)` on a string: optional surrounding whitespace, optional
sign, then decimal digits; `none` models the `ValueError` branch. -/
def parsePyInt (s : String) : Option Int :=
  match trimChars s.data with
  | '-' :: rest => (digitsVal rest).map (fun n => -(n : Int))
  | '+' :: rest => (digitsVal rest).map (fun n => (n : Int))
  | cs => (digitsVal cs).map (fun n => (n : Int))

/-- Modelled from the spec: `nn.DataFolder(folder_path).find(keyword,
deep=True)` is an external collaborator, described as a "recursive
file-search-by-keyword primitive over a folder" returning the files whose
names contain the keyword.  The folder tree is abstracted to the list of the
file paths it contains. -/
def findIn (files : List String) (keyword : String) : List String :=
  files.filter (fun f => strContainsB f keyword)

/-- Keyword search of `getDataFile_in_folder` (source lines 258-268): a `str`
keyword is searched directly; for a list, one search per keyword and the
intersection is accumulated starting from `list_of_sets[0]` — which raises
`IndexError` when the keyword list is empty; other types raise `TypeError`.
Python's transient `set()`s are modelled by lists, intersected with
`List.inter`. -/
def getCandidates (keywords : PyKeywords) (files : List String) : PyResult (List String) :=
  match keywords with
  | .str kw => .ok (findIn files kw)
  | .list kws =>
      match kws.map (findIn files) with
      | [] => .raise (.indexError "list index out of range")
      | s0 :: ss => .ok ((s0 :: ss).foldl (fun acc s => s ∩ acc) s0)
  | .other _ => .raise (.typeError "Argument \x27keywords\x27 must be either str or list")

/-- Interactive disambiguation loop (source lines 280-296).  The interactive
channel is the list `inputs` of answers to the prompt, consumed in order;
exhausting it models `input()` hitting end of input (`EOFError`). -/
def chooseLoop (files : List String) : List String → PyResult String
  | [] => .raise .eofError
  | choice :: rest =>
      if choice = "q" then .raise (.runtimeError "Nextnanopy terminated.")
      else
        match parsePyInt choice with
        | none => chooseLoop files rest
        | some i =>
            if i < 0 ∨ (files.length : Int) ≤ i then chooseLoop files rest
            else .ok (files.getD i.toNat "")

/-- Validation of the search result (source lines 271-296): zero matches
raise `FileNotFoundError` naming the keywords, one match is returned
directly, several matches enter the disambiguation loop. -/
def resolve_search_result (keywords : PyKeywords) (list_of_files inputs : List String) :
    PyResult String :=
  match list_of_files with
  | [] => .raise (.fileNotFoundError
      ("No output file found with keyword(s) \x27" ++ kwRepr keywords ++ "\x27!"))
  | [file] => .ok file
  | _ => chooseLoop list_of_files inputs

/-- Embedding of `getDataFile_in_folder` (source lines 238-303), returning
the resolved file path.  (Wrapping the path into an `nn.DataFile` at lines
300-303 is delegated to the external library and not modelled.) -/
def getDataFile_in_folder (keywords : PyKeywords) (files inputs : List String) :
    PyResult String :=
  match getCandidates keywords files with
  | .raise e => .raise e
  | .ok list_of_files => resolve_search_result keywords list_of_files inputs

theorem mem_foldl_inter (x : String) :
    ∀ (sets : List (List String)) (acc : List String),
      (x ∈ sets.foldl (fun a s => s ∩ a) acc ↔ x ∈ acc ∧ ∀ s ∈ sets, x ∈ s) := by
  intro sets
  induction sets with
  | nil => intro acc; simp
  | cons s t ih =>
      intro acc
      rw [List.foldl_cons, ih]
      simp only [List.mem_inter_iff, List.mem_cons]
      constructor
      · rintro ⟨⟨hs, ha⟩, hall⟩
        exact ⟨ha, fun w hw => hw.elim (fun he => he ▸ hs) (hall w)⟩
      · rintro ⟨ha, hall⟩
        exact ⟨⟨hall s (Or.inl rfl), ha⟩, fun w hw => hall w (Or.inr hw)⟩

/-- C4: with a list of several keywords, the candidate set of
`getDataFile_in_folder` is the intersection of the per-keyword search
results (AND semantics); a single `str` keyword's result list is taken
directly; and the spec's concrete instance: `["energy", "electron"]` over
`energy_electron.dat`, `energy_hole.dat`, `potential.dat` yields exactly
`energy_electron.dat`. -/
theorem getDataFile_keyword_intersection :
    (∀ (files : List String) (kw : String),
      getCandidates (.str kw) files = .ok (findIn files kw))
    ∧ (∀ (files : List String) (k0 : String) (ks : List String) (c : List String) (x : String),
      getCandidates (.list (k0 :: ks)) files = .ok c →
      (x ∈ c ↔ ∀ k ∈ k0 :: ks, x ∈ findIn files k))
    ∧ getCandidates (.list ["energy", "electron"])
        ["energy_electron.dat", "energy_hole.dat", "potential.dat"]
        = .ok ["energy_electron.dat"] := by
  refine ⟨fun files kw => rfl, ?_, by decide⟩
  intro files k0 ks c x h
  simp only [getCandidates, List.map_cons] at h
  rcases h with ⟨⟩
  rw [mem_foldl_inter]
  constructor
  · rintro ⟨hx0, hall⟩ k hk
    rcases List.mem_cons.mp hk with rfl | hk2
    · exact hx0
    · exact hall _ (List.mem_cons.mpr (Or.inr (List.mem_map.mpr ⟨k, hk2, rfl⟩)))
  · intro hall
    refine ⟨hall k0 (by simp), fun s hs => ?_⟩
    rcases List.mem_cons.mp hs with rfl | hs2
    · exact hall k0 (by simp)
    · rcases List.mem_map.mp hs2 with ⟨k, hk, rfl⟩
      exact hall k (by simp [hk])

/-- Closed instance of the intersection part of
`getDataFile_keyword_intersection`, on the spec's concrete example. -/
theorem getDataFile_keyword_intersection_witness :
    ("energy_electron.dat" ∈ (["energy_electron.dat"] : List String))
      ↔ ∀ k ∈ ["energy", "electron"],
        "energy_electron.dat"
          ∈ findIn ["energy_electron.dat", "energy_hole.dat", "potential.dat"] k :=
  getDataFile_keyword_intersection.2.1
    ["energy_electron.dat", "energy_hole.dat", "potential.dat"]
    "energy" ["electron"] ["energy_electron.dat"] "energy_electron.dat" (by decide)

theorem quoteJoin_contains :
    ∀ (ks : List String) (k : String), k ∈ ks → ∃ p q, quoteJoin ks = p ++ k ++ q := by
  intro ks
  induction ks with
  | nil => intro k h; simp at h
  | cons a t ih =>
      intro k h
      rcases List.mem_cons.mp h with rfl | h2
      · cases t with
        | nil => exact ⟨"\x27", "\x27", by simp [quoteJoin, String.append_assoc]⟩
        | cons b t2 =>
            exact ⟨"\x27", "\x27, " ++ quoteJoin (b :: t2),
              by simp [quoteJoin, String.append_assoc]⟩
      · cases t with
        | nil => simp at h2
        | cons b t2 =>
            rcases ih k h2 with ⟨p, q, hpq⟩
            exact ⟨"\x27" ++ a ++ "\x27, " ++ p, q,
              by simp [quoteJoin, hpq, String.append_assoc]⟩

/-- C7: when the keyword search yields an empty candidate set,
`getDataFile_in_folder` raises a `FileNotFoundError` whose message contains
each searched keyword, and that error kind is distinct from the component's
other error kinds. -/
theorem getDataFile_not_found_error :
    ∀ (kws : PyKeywords) (files inputs : List String),
      getCandidates kws files = .ok [] →
      ∃ m, getDataFile_in_folder kws files inputs = .raise (.fileNotFoundError m)
        ∧ (∀ k ∈ keywordList kws, ∃ p q, m = p ++ k ++ q)
        ∧ (∀ m2, Err.fileNotFoundError m ≠ Err.runtimeError m2)
        ∧ (∀ m2, Err.fileNotFoundError m ≠ Err.typeError m2)
        ∧ (∀ m2, Err.fileNotFoundError m ≠ Err.indexError m2) := by
  intro kws files inputs h
  refine ⟨"No output file found with keyword(s) \x27" ++ kwRepr kws ++ "\x27!", ?_, ?_,
    fun _ h2 => Err.noConfusion h2, fun _ h2 => Err.noConfusion h2,
    fun _ h2 => Err.noConfusion h2⟩
  · rw [getDataFile_in_folder, h]
    rfl
  · intro k hk
    cases kws with
    | str s =>
        simp only [keywordList, List.mem_singleton] at hk
        subst hk
        exact ⟨"No output file found with keyword(s) \x27", "\x27!",
          by simp [kwRepr, String.append_assoc]⟩
    | list ks =>
        simp only [keywordList] at hk
        rcases quoteJoin_contains ks k hk with ⟨p, q, hpq⟩
        exact ⟨"No output file found with keyword(s) \x27" ++ "[" ++ p, q ++ "]" ++ "\x27!",
          by simp only [kwRepr, hpq, String.append_assoc]⟩
    | other t => simp [keywordList] at hk

/-- Closed instance of `getDataFile_not_found_error`: keyword `energy`
searched over an empty folder. -/
theorem getDataFile_not_found_error_witness :
    ∃ m, getDataFile_in_folder (.str "energy") [] [] = .raise (.fileNotFoundError m)
      ∧ (∀ k ∈ keywordList (.str "energy"), ∃ p q, m = p ++ k ++ q)
      ∧ (∀ m2, Err.fileNotFoundError m ≠ Err.runtimeError m2)
      ∧ (∀ m2, Err.fileNotFoundError m ≠ Err.typeError m2)
      ∧ (∀ m2, Err.fileNotFoundError m ≠ Err.indexError m2) :=
  getDataFile_not_found_error (.str "energy") [] [] (by decide)

/-- C8: in the multiple-match branch of `getDataFile_in_folder` the chooser
loop is entered; there, input `q` raises the fatal RuntimeError "Nextnanopy
terminated.", a non-integer input or an index outside `[0, number of
candidates)` is skipped and the loop continues with the next input, and the
first valid index returns the candidate file at that index. -/
theorem getDataFile_chooser_loop :
    (∀ (kw : String) (files inputs lof : List String),
      getCandidates (.str kw) files = .ok lof → 2 ≤ lof.length →
      getDataFile_in_folder (.str kw) files inputs = chooseLoop lof inputs)
    ∧ (∀ (files rest : List String),
      chooseLoop files ("q" :: rest) = .raise (.runtimeError "Nextnanopy terminated."))
    ∧ (∀ (s : String) (files rest : List String), s ≠ "q" → parsePyInt s = none →
      chooseLoop files (s :: rest) = chooseLoop files rest)
    ∧ (∀ (s : String) (i : Int) (files rest : List String), s ≠ "q" → parsePyInt s = some i →
      (i < 0 ∨ (files.length : Int) ≤ i) → chooseLoop files (s :: rest) = chooseLoop files rest)
    ∧ (∀ (s : String) (i : Int) (files rest : List String), s ≠ "q" → parsePyInt s = some i →
      0 ≤ i → i < (files.length : Int) →
      chooseLoop files (s :: rest) = .ok (files.getD i.toNat "")) := by
  refine ⟨?_, ?_, ?_, ?_, ?_⟩
  · intro kw files inputs lof h hlen
    rw [getDataFile_in_folder, h]
    show resolve_search_result (.str kw) lof inputs = chooseLoop lof inputs
    cases lof with
    | nil => simp at hlen
    | cons a t =>
        cases t with
        | nil => simp at hlen
        | cons b t2 => rfl
  · intro files rest
    rw [chooseLoop, if_pos rfl]
  · intro s files rest hq hp
    rw [chooseLoop, if_neg hq, hp]
  · intro s i files rest hq hp hcond
    rw [chooseLoop, if_neg hq, hp]
    exact if_pos hcond
  · intro s i files rest hq hp h0 hlt
    rw [chooseLoop, if_neg hq, hp]
    exact if_neg (by omega)

/-- Closed run of `getDataFile_chooser_loop` over the two candidates
`a.dat`, `b.dat`: entry into the loop, quit, a non-integer input, an
out-of-range index `5`, and the valid index `1`. -/
theorem getDataFile_chooser_loop_witness :
    getDataFile_in_folder (.str ".dat") ["a.dat", "b.dat"] ["q"]
      = chooseLoop ["a.dat", "b.dat"] ["q"]
    ∧ chooseLoop ["a.dat", "b.dat"] ["q"]
      = .raise (.runtimeError "Nextnanopy terminated.")
    ∧ chooseLoop ["a.dat", "b.dat"] ("oops" :: ["1"]) = chooseLoop ["a.dat", "b.dat"] ["1"]
    ∧ chooseLoop ["a.dat", "b.dat"] ("5" :: ["1"]) = chooseLoop ["a.dat", "b.dat"] ["1"]
    ∧ chooseLoop ["a.dat", "b.dat"] ("1" :: [])
      = .ok ((["a.dat", "b.dat"] : List String).getD (1 : Int).toNat "") :=
  ⟨getDataFile_chooser_loop.1 ".dat" ["a.dat", "b.dat"] ["q"] ["a.dat", "b.dat"]
      (by decide) (by decide),
   getDataFile_chooser_loop.2.1 ["a.dat", "b.dat"] [],
   getDataFile_chooser_loop.2.2.1 "oops" ["a.dat", "b.dat"] ["1"] (by decide) (by decide),
   getDataFile_chooser_loop.2.2.2.1 "5" 5 ["a.dat", "b.dat"] ["1"] (by decide) (by decide)
      (by decide),
   getDataFile_chooser_loop.2.2.2.2 "1" 1 ["a.dat", "b.dat"] [] (by decide) (by decide)
      (by decide) (by decide)⟩

/-- C10: calling `getDataFile_in_folder` with an empty keyword list raises an
uncaught `IndexError` from `list_of_sets[0]` — not the documented
"no output file found" `FileNotFoundError` and not a `TypeError` — for every
folder content and every input stream. -/
theorem getDataFile_empty_keywords_indexerror :
    (∀ files inputs : List String,
      getDataFile_in_folder (.list []) files inputs
        = .raise (.indexError "list index out of range"))
    ∧ (∀ m, Err.indexError "list index out of range" ≠ Err.fileNotFoundError m)
    ∧ (∀ m, Err.indexError "list index out of range" ≠ Err.typeError m) :=
  ⟨fun _ _ => rfl, fun _ h => Err.noConfusion h, fun _ h => Err.noConfusion h⟩

/-- Closed instance of `getDataFile_empty_keywords_indexerror` on a one-file
folder, against the message the not-found branch would have produced. -/
theorem getDataFile_empty_keywords_indexerror_witness :
    getDataFile_in_folder (.list []) ["energy.dat"] []
      = .raise (.indexError "list index out of range")
    ∧ Err.indexError "list index out of range"
      ≠ Err.fileNotFoundError "No output file found with keyword(s) \x27[]\x27!" :=
  ⟨getDataFile_empty_keywords_indexerror.1 ["energy.dat"] [],
   getDataFile_empty_keywords_indexerror.2.1 _⟩
